import Mathlib

/-!
Verification of the stateless MCP server (src/server.ts, with the legacy variant
src/stateless-production-server.ts) against its natural-language specification.

The development shallowly embeds the parts of the TypeScript source that the
claims are about:

* the percentile helper (src/server.ts, function percentile, lines 94-99);
* the bounded metric-series append (push + shift-on-overflow, used for
  metrics.requestDuration at lines 1256-1262 and for the per-tool series at
  lines 400-412);
* the calculate tool handler (lines 309-437): operation dispatch, the
  division-by-zero guard, progress notifications and the per-tool metric push;
* the demo_progress tool handler (lines 451-489);
* the calculator-history resource handler (lines 549-567);
* the capability registration of createMCPServer (lines 243-960), in
  particular the SAMPLE_TOOL_NAME-gated optional tool (lines 282-297);
* the control flow of handleMCPRequest (lines 1214-1299), reduced to which
  steps can throw, whether the cleanup listener gets registered, and what the
  catch-all safety net sends; the legacy variant's safety net
  (src/stateless-production-server.ts lines 624-640) is embedded separately.

JavaScript numbers are modelled as rationals; Date.now() durations as naturals.
-/

/-- JSON-RPC error codes used by the source. The source imports these from the
MCP SDK (`ErrorCode` in @modelcontextprotocol/sdk/types.js); the numeric values
are the standard JSON-RPC 2.0 codes. -/
inductive ErrorCode where
  | MethodNotFound
  | InvalidParams
  | InternalError
deriving DecidableEq, Repr

/-- Numeric value of each SDK error code (JSON-RPC 2.0 standard values). -/
def ErrorCode.code : ErrorCode → ℤ
  | .MethodNotFound => -32601
  | .InvalidParams => -32602
  | .InternalError => -32603

/-- Protocol-compliant error object thrown by tool and resource handlers
(`new McpError(code, message)` in the source). -/
structure McpError where
  code : ErrorCode
  message : String
deriving DecidableEq, Repr

/-- Modelled from the spec, section 6: "a small fixed enumeration —
invalid-parameters, not-found, method-not-found, rate-limited,
payload-too-large, internal-error". The spec lists these as distinct
protocol-visible error categories. This definition follows the spec's words;
it exists so that claims phrased in terms of the spec's taxonomy can be
compared with the codes the source actually emits. -/
inductive SpecFaultCode where
  | invalidParameters
  | notFound
  | methodNotFound
  | rateLimited
  | payloadTooLarge
  | internalError
deriving DecidableEq, Repr

/-- The spec-taxonomy category of each SDK error code the source emits,
matched by name. -/
def specFaultOf : ErrorCode → SpecFaultCode
  | .InvalidParams => .invalidParameters
  | .MethodNotFound => .methodNotFound
  | .InternalError => .internalError

/-- Embedding of `percentile` (src/server.ts lines 94-99):

    function percentile(arr: number[], p: number): number {
      if (arr.length === 0) return 0;
      const sorted = [...arr].sort((a, b) => a - b);
      const index = Math.ceil((sorted.length - 1) * p);
      return sorted[index] ?? 0;
    }

`[...arr].sort((a, b) => a - b)` sorts a copy ascending; on a linear order the
ascending reordering of a list is unique, and is modelled by `insertionSort`.
`sorted[index] ?? 0` yields 0 when the index is negative or past the end,
modelled by the sign test plus `getD`. -/
def percentile (arr : List ℚ) (p : ℚ) : ℚ :=
  if arr.length = 0 then 0
  else
    let sorted := arr.insertionSort (· ≤ ·)
    let index : ℤ := ⌈((sorted.length : ℚ) - 1) * p⌉
    if index < 0 then 0 else sorted.getD index.toNat 0

/-- Embedding of the bounded metric-series append. Both metric series use the
same code shape (src/server.ts lines 1258-1262 for `requestDuration`, lines
407-412 for the per-tool series):

    series.push(duration);
    if (series.length > 1000) {
      series.shift(); // Remove oldest measurement
    }
-/
def pushBounded (buf : List ℕ) (d : ℕ) : List ℕ :=
  if 1000 < (buf ++ [d]).length then (buf ++ [d]).tail else buf ++ [d]

/-- The arithmetic operations accepted by the calculate tool
(`op: z.enum(['add', 'subtract', 'multiply', 'divide'])`). -/
inductive Op where
  | add
  | subtract
  | multiply
  | divide
deriving DecidableEq, Repr

/-- Result formatting of step 5 of the calculate handler,
`parseFloat(result.toFixed(precision))` (line 384): rounding to `precision`
decimal places, abstracted to exact decimal rounding on rationals (the
binary-floating-point digit behaviour of toFixed is not modelled; no claim
depends on the rounded value). -/
def roundToPrecision (x : ℚ) (prec : ℤ) : ℚ :=
  (round (x * (10 : ℚ) ^ prec) : ℤ) / (10 : ℚ) ^ prec

/-- One observable client-facing event of a tool invocation, in emission
order: a `notifications/progress` notification carrying its progress
fraction, or the final outcome (the handler's return value, or the McpError
it throws). `α` is the payload type of a successful result. -/
inductive ToolEvent (α : Type) where
  | progress (fraction : ℚ)
  | final (outcome : Except McpError α)

/-- Result of one calculate-tool invocation: the ordered event trace and the
state of the shared 'calculate' execution-time series after the call. -/
structure ToolRun where
  trace : List (ToolEvent ℚ)
  series : List ℕ

/-- Embedding of the calculate tool handler (src/server.ts lines 309-437).
`series` is the `metrics.toolExecutionTime` entry for 'calculate' before the
call (an absent entry is the empty list, per the has/set at lines 403-405),
`dur` the measured duration `Date.now() - toolStartTime`.

Faithful control flow: when streaming, a progress 0.1 notification is sent
first (lines 338-347); the op switch runs (lines 351-380), where divide with
b = 0 throws McpError(InvalidParams, 'Division by zero is not allowed.')
(lines 366-376) — the catch at lines 424-435 only logs and rethrows, so on
that path no completion notification is sent and no metric is pushed; on
success the result is rounded (line 384), the progress 1.0 notification is
sent when streaming (lines 389-398), and the duration is pushed onto the
bounded series (lines 400-412) before the result is returned. The textual
content of the returned message is abstracted to the numeric result. -/
def calculateTool (a b : ℚ) (op : Op) (stream : Bool) (precision : ℤ)
    (series : List ℕ) (dur : ℕ) : ToolRun :=
  let pre : List (ToolEvent ℚ) := if stream then [.progress (1/10)] else []
  let opOutcome : Except McpError ℚ :=
    match op with
    | .add => .ok (a + b)
    | .subtract => .ok (a - b)
    | .multiply => .ok (a * b)
    | .divide =>
        if b = 0 then
          .error ⟨.InvalidParams, "Division by zero is not allowed."⟩
        else .ok (a / b)
  match opOutcome with
  | .error e => { trace := pre ++ [.final (.error e)], series := series }
  | .ok r =>
      let post : List (ToolEvent ℚ) := if stream then [.progress 1] else []
      { trace := pre ++ post ++ [.final (.ok (roundToPrecision r precision))]
        series := pushBounded series dur }

/-- Embedding of the demo_progress tool handler (src/server.ts lines 451-489):
the loop `for (let i = 1; i <= 5; i++)` sends progress i/5 (fractions 0.2,
0.4, 0.6, 0.8, 1.0), then the handler returns its completion text. -/
def demoProgressTrace : List (ToolEvent String) :=
  [.progress (1/5), .progress (2/5), .progress (3/5), .progress (4/5),
   .progress (5/5),
   .final (.ok "Progress demonstration completed with 5 incremental steps")]

/-- The final outcome carried by a tool-event trace, read off its last
element. -/
def finalOutcome {α : Type} (trace : List (ToolEvent α)) :
    Option (Except McpError α) :=
  match trace.getLast? with
  | some (.final r) => some r
  | _ => none

/-- Embedding of the calculator-history resource handler (src/server.ts lines
549-567): for every requested uri it throws
McpError(ErrorCode.MethodNotFound, 'Resource requires state, which is not
supported by this server.'). -/
def calculatorHistoryResource (_uri : String) : Except McpError Unit :=
  .error ⟨.MethodNotFound,
    "Resource requires state, which is not supported by this server."⟩

/-- The process environment state observed by one call of the engine factory.
`sampleToolName` is the value of process.env['SAMPLE_TOOL_NAME'] at the
moment `createMCPServer` executes (`none` when the variable is unset).
process.env is mutable process-global state, so the value can differ between
two calls. -/
structure EnvConfig where
  sampleToolName : Option String
deriving DecidableEq

/-- The capability set an engine instance registers: the names of its tools,
resources and prompts. -/
structure Capabilities where
  tools : List String
  resources : List String
  prompts : List String
deriving DecidableEq

/-- Tools registered by `createMCPServer` (src/server.ts lines 243-960). The
optional sample tool is registered first, guarded by the JavaScript
truthiness test `if (process.env['SAMPLE_TOOL_NAME'])` (line 282) — the empty
string is falsy — and this read of process.env happens inside the factory,
i.e. on every call. -/
def registeredTools (env : EnvConfig) : List String :=
  (match env.sampleToolName with
   | some n => if n = "" then [] else [n]
   | none => []) ++ ["calculate", "demo_progress"]

/-- Resources registered by `createMCPServer` (lines 504-768), in
registration order. -/
def registeredResources : List String :=
  ["math-constants", "calculator-history", "calculator-stats",
   "formula-library", "request-info"]

/-- Prompts registered by `createMCPServer` (lines 783-945). -/
def registeredPrompts : List String :=
  ["explain-calculation", "generate-problems", "calculator-tutor"]

/-- Embedding of the capability registration performed by `createMCPServer`,
as a function of the environment state it reads during the call. -/
def createMCPServer (env : EnvConfig) : Capabilities :=
  { tools := registeredTools env
    resources := registeredResources
    prompts := registeredPrompts }

/-- An exception as observed by the coordinator's safety net: whether it is
an Error instance, and its message and stack strings. -/
structure ThrownError where
  isErrorInstance : Bool
  message : String
  stack : String
deriving DecidableEq

/-- Body of a JSON-RPC error response sent to the client. -/
structure JsonRpcErrorBody where
  code : ℤ
  message : String
deriving DecidableEq

/-- The client-visible response written by the safety-net catch block of the
main server's handleMCPRequest (src/server.ts lines 1267-1289): if headers
were already sent nothing is written; otherwise a fixed generic body is sent,
independent of the caught error (the error's message and stack go to the log
only). -/
def safetyNetResponse (_e : ThrownError) (headersSent : Bool) :
    Option JsonRpcErrorBody :=
  if headersSent then none
  else some { code := ErrorCode.InternalError.code
              message := "An internal server error occurred." }

/-- The client-visible response written by the catch block of the legacy
variant's handleMCPRequest (src/stateless-production-server.ts lines
624-640): when headers are unsent it sends code -32603 with
`error instanceof Error ? error.message : 'Internal server error'` — the raw
message of the caught exception. -/
def legacySafetyNetResponse (e : ThrownError) (headersSent : Bool) :
    Option JsonRpcErrorBody :=
  if headersSent then none
  else some { code := -32603
              message := if e.isErrorInstance then e.message
                         else "Internal server error" }

/-- One execution scenario of handleMCPRequest (src/server.ts lines
1214-1299), abstracted to which awaited step rejects. `createMCPServer`
(line 1235) runs first; the transport is constructed at lines 1239-1244;
`server.connect(transport)` (line 1248) and `transport.handleRequest` (line
1251) are awaited in order. `headersSentBeforeFailure` is the value of
res.headersSent tested by the catch block (line 1275). `clientAborts` records
whether the client aborts the connection mid-stream; an abort only decides
when the response's close event fires, which Node emits exactly once on every
termination path. -/
structure RequestScenario where
  createServerThrows : Bool
  connectThrows : Bool
  handleRequestThrows : Bool
  headersSentBeforeFailure : Bool
  clientAborts : Bool
deriving DecidableEq

/-- Observable outcome of one handleMCPRequest execution: whether a
TransportInstance was constructed, whether the res.on('close') cleanup
listener (registered at lines 1253-1266, only after `transport.handleRequest`
has returned) was installed, how many times the cleanup action ran when the
close event fired, how many duration samples it appended, how often
transport.close() and server.close() were called, and whether the safety net
wrote the generic 500 response. -/
structure HandlerTrace where
  transportConstructed : Bool
  cleanupRegistered : Bool
  cleanupRuns : ℕ
  durationSamplesRecorded : ℕ
  transportCloseCalls : ℕ
  serverCloseCalls : ℕ
  sentGenericError : Bool
deriving DecidableEq

/-- Embedding of the control flow of handleMCPRequest (src/server.ts lines
1214-1299). The try block runs createMCPServer, constructs the transport,
connects, and awaits handleRequest; the `res.on('close', ...)` registration
at line 1253 is reached only when none of these threw. Any rejection jumps to
the catch block (lines 1267-1289), which writes the generic error iff headers
are unsent — and never registers the cleanup listener. When the listener is
registered, the close event (fired exactly once, whether the response
completed or the client aborted) runs the cleanup action once: it appends one
duration sample (lines 1256-1262) and calls transport.close() and
server.close() (lines 1264-1265). -/
def handleMCPRequest (s : RequestScenario) : HandlerTrace :=
  if s.createServerThrows then
    { transportConstructed := false, cleanupRegistered := false
      cleanupRuns := 0, durationSamplesRecorded := 0
      transportCloseCalls := 0, serverCloseCalls := 0
      sentGenericError := !s.headersSentBeforeFailure }
  else if s.connectThrows then
    { transportConstructed := true, cleanupRegistered := false
      cleanupRuns := 0, durationSamplesRecorded := 0
      transportCloseCalls := 0, serverCloseCalls := 0
      sentGenericError := !s.headersSentBeforeFailure }
  else if s.handleRequestThrows then
    { transportConstructed := true, cleanupRegistered := false
      cleanupRuns := 0, durationSamplesRecorded := 0
      transportCloseCalls := 0, serverCloseCalls := 0
      sentGenericError := !s.headersSentBeforeFailure }
  else
    { transportConstructed := true, cleanupRegistered := true
      cleanupRuns := 1, durationSamplesRecorded := 1
      transportCloseCalls := 1, serverCloseCalls := 1
      sentGenericError := false }

/-- A plain JavaScript Error as thrown by the legacy variant's handlers
(src/stateless-production-server.ts): a message plus the optional ad-hoc
numeric `code` property some of its handlers attach
(`const error: any = new Error(...); error.code = ...;`); a bare
`new Error(msg)` carries no code. -/
structure LegacyError where
  message : String
  code : Option ℤ
deriving DecidableEq, Repr

/-- Embedding of the op switch of the legacy calculate handler
(src/stateless-production-server.ts lines 105-126): the same arithmetic as
the main server, but divide with b = 0 throws the plain
`new Error('Division by zero')` (lines 119-121), with no error code
attached. -/
def legacyCalculateOp (a b : ℚ) (op : Op) : Except LegacyError ℚ :=
  match op with
  | .add => .ok (a + b)
  | .subtract => .ok (a - b)
  | .multiply => .ok (a * b)
  | .divide =>
      if b = 0 then .error ⟨"Division by zero", none⟩
      else .ok (a / b)

/-- Embedding of the legacy calculator-history resource handler
(src/stateless-production-server.ts lines 272-285): for every requested uri
it throws a plain Error('404 Not Found') whose ad-hoc code property is set
to -32602. -/
def legacyCalculatorHistoryResource (_uri : String) : Except LegacyError Unit :=
  .error ⟨"404 Not Found", some (-32602)⟩

/-! ## Helper lemmas -/

lemma length_insertionSort_rat (l : List ℚ) :
    (l.insertionSort (· ≤ ·)).length = l.length :=
  (List.perm_insertionSort _ l).length_eq

lemma ceilIndex_nonneg {n : ℕ} {p : ℚ} (hn : 1 ≤ n) (hp : 0 ≤ p) :
    0 ≤ ⌈((n : ℚ) - 1) * p⌉ := by
  have h1 : (1 : ℚ) ≤ (n : ℚ) := by exact_mod_cast hn
  exact Int.ceil_nonneg (mul_nonneg (by linarith) hp)

lemma ceilIndex_lt {n : ℕ} {p : ℚ} (hn : 1 ≤ n) (hp1 : p ≤ 1) :
    (⌈((n : ℚ) - 1) * p⌉).toNat < n := by
  have h1 : (1 : ℚ) ≤ (n : ℚ) := by exact_mod_cast hn
  have h2 : ((n : ℚ) - 1) * p ≤ (n : ℚ) - 1 :=
    mul_le_of_le_one_right (by linarith) hp1
  have h3 : ⌈((n : ℚ) - 1) * p⌉ ≤ (n : ℤ) - 1 := by
    rw [Int.ceil_le]
    push_cast
    linarith
  omega

/-- On a non-empty series with a non-negative fraction, `percentile` selects
from the ascending reordering of the series at the ceiling index. -/
lemma percentile_eq_getD {arr : List ℚ} {p : ℚ} (hne : arr ≠ []) (hp0 : 0 ≤ p) :
    percentile arr p
      = (arr.insertionSort (· ≤ ·)).getD (⌈((arr.length : ℚ) - 1) * p⌉).toNat 0 := by
  have hlen : arr.length ≠ 0 := by
    simpa [List.length_eq_zero] using hne
  have hn : 1 ≤ arr.length := Nat.one_le_iff_ne_zero.mpr hlen
  have hs : (arr.insertionSort (· ≤ ·)).length = arr.length :=
    length_insertionSort_rat arr
  unfold percentile
  rw [if_neg hlen]
  simp only [hs]
  rw [if_neg (not_lt.mpr (ceilIndex_nonneg hn hp0))]

lemma pushBounded_of_lt {buf : List ℕ} {d : ℕ} (h : buf.length < 1000) :
    pushBounded buf d = buf ++ [d] := by
  unfold pushBounded
  rw [if_neg]
  simp only [List.length_append, List.length_cons, List.length_nil]
  omega

lemma pushBounded_of_full {x : ℕ} {t : List ℕ} {d : ℕ}
    (h : 1000 ≤ (x :: t).length) :
    pushBounded (x :: t) d = t ++ [d] := by
  unfold pushBounded
  rw [if_pos]
  · rfl
  · simp only [List.length_append, List.length_cons, List.length_nil]
    simp at h
    omega

/-- Folding the bounded append over a sample stream from any admissible start
state keeps exactly the samples that fit, preferring the most recent ones. -/
lemma pushBounded_foldl (ds : List ℕ) : ∀ buf : List ℕ, buf.length ≤ 1000 →
    List.foldl pushBounded buf ds
      = (buf ++ ds).drop (buf.length + ds.length - 1000) := by
  induction ds with
  | nil =>
      intro buf h
      simp [Nat.sub_eq_zero_of_le h]
  | cons d ds ih =>
      intro buf h
      rw [List.foldl_cons]
      by_cases hc : buf.length < 1000
      · rw [pushBounded_of_lt hc, ih (buf ++ [d]) (by simp; omega)]
        have he : buf ++ [d] ++ ds = buf ++ d :: ds := by simp
        rw [he]
        have hi : (buf ++ [d]).length + ds.length - 1000
            = buf.length + (d :: ds).length - 1000 := by
          simp
          omega
        rw [hi]
      · have h1000 : buf.length = 1000 := by omega
        obtain ⟨x, t, rfl⟩ : ∃ x t, buf = x :: t := by
          cases buf with
          | nil => simp at h1000
          | cons x t => exact ⟨x, t, rfl⟩
        have ht : t.length = 999 := by
          simp at h1000
          omega
        rw [pushBounded_of_full (by omega), ih (t ++ [d]) (by simp [ht])]
        have he : t ++ [d] ++ ds = t ++ d :: ds := by simp
        rw [he]
        have hi1 : (t ++ [d]).length + ds.length - 1000 = ds.length := by
          simp [ht]
        rw [hi1]
        have hi2 : (x :: t).length + (d :: ds).length - 1000 = ds.length + 1 := by
          simp [ht]
        rw [hi2]
        rw [List.cons_append, List.drop_succ_cons]

/-- The bounded append always leaves the new sample as the last element. -/
lemma pushBounded_getLast (buf : List ℕ) (d : ℕ) :
    (pushBounded buf d).getLast? = some d := by
  unfold pushBounded
  split
  · cases buf with
    | nil => simp_all
    | cons x t =>
        rw [List.cons_append, List.tail_cons]
        exact List.getLast?_concat _
  · exact List.getLast?_concat _

/-! ## Claim theorems -/

/-- C1 (counterexample): the claim says the close-triggered cleanup runs
exactly once on every termination path on which a TransportInstance was
constructed, including when an exception escapes steps 2-5 of the
coordinator. In the source the cleanup listener is registered at line 1253,
after `await transport.handleRequest(...)`; when handleRequest rejects, the
catch block runs and the listener is never installed, so in the scenario
where the transport was constructed and handleRequest throws, cleanup runs
zero times and no duration sample is recorded. -/
theorem cleanup_skipped_on_handler_exception :
    (handleMCPRequest ⟨false, false, true, false, false⟩).transportConstructed
        = true ∧
    (handleMCPRequest ⟨false, false, true, false, false⟩).cleanupRuns = 0 ∧
    (handleMCPRequest ⟨false, false, true, false, false⟩).durationSamplesRecorded
        = 0 ∧
    (handleMCPRequest ⟨false, false, true, false, false⟩).transportCloseCalls
        = 0 ∧
    (handleMCPRequest ⟨false, false, true, false, false⟩).serverCloseCalls = 0 :=
  ⟨rfl, rfl, rfl, rfl, rfl⟩

/-- C1 (amended): for every request scenario, when createMCPServer, connect
and handleRequest all complete without throwing — in particular also when the
client aborts mid-stream afterwards — the close-triggered cleanup runs
exactly once, recording exactly one duration sample and closing the transport
and the engine once each; when any of those steps throws, the cleanup
listener is never registered and cleanup does not run (so cleanup is skipped
not only when no TransportInstance was constructed); in all scenarios cleanup
never runs more than once. -/
theorem cleanup_exactly_once_when_handler_completes :
    ∀ s : RequestScenario,
      (s.createServerThrows = false → s.connectThrows = false →
        s.handleRequestThrows = false →
        (handleMCPRequest s).cleanupRuns = 1 ∧
        (handleMCPRequest s).durationSamplesRecorded = 1 ∧
        (handleMCPRequest s).transportCloseCalls = 1 ∧
        (handleMCPRequest s).serverCloseCalls = 1) ∧
      ((s.createServerThrows = true ∨ s.connectThrows = true ∨
          s.handleRequestThrows = true) →
        (handleMCPRequest s).cleanupRuns = 0 ∧
        (handleMCPRequest s).durationSamplesRecorded = 0) ∧
      ((handleMCPRequest s).transportConstructed = false →
        (handleMCPRequest s).cleanupRuns = 0) ∧
      (handleMCPRequest s).cleanupRuns ≤ 1 := by
  intro s
  obtain ⟨cs, ct, hr, hs, ca⟩ := s
  cases cs <;> cases ct <;> cases hr <;> simp [handleMCPRequest]

/-- C1 (witness): the amended theorem applied to the mid-stream client-abort
scenario in which no step threw. -/
theorem cleanup_exactly_once_when_handler_completes_witness :
    (handleMCPRequest ⟨false, false, false, false, true⟩).cleanupRuns = 1 ∧
    (handleMCPRequest ⟨false, false, false, false, true⟩).durationSamplesRecorded
        = 1 :=
  ⟨((cleanup_exactly_once_when_handler_completes
      ⟨false, false, false, false, true⟩).1 rfl rfl rfl).1,
   ((cleanup_exactly_once_when_handler_completes
      ⟨false, false, false, false, true⟩).1 rfl rfl rfl).2.1⟩

/-- C2 (code bug evidence): the main server's safety net
(src/server.ts) sends a fixed generic body independent of the caught
exception, but the legacy variant's safety net
(src/stateless-production-server.ts lines 630-639) copies the caught
exception's raw message into the client-visible response body: evaluated at
an injected Error whose message is an internal connection string, the client
receives that string verbatim. -/
theorem legacy_safety_net_leaks_message :
    legacySafetyNetResponse
        ⟨true, "connect ECONNREFUSED 127.0.0.1:5432",
         "Error: connect ECONNREFUSED 127.0.0.1:5432 at TCPConnectWrap"⟩ false
      = some ⟨-32603, "connect ECONNREFUSED 127.0.0.1:5432"⟩ ∧
    (∀ e : ThrownError, safetyNetResponse e false
        = some ⟨ErrorCode.InternalError.code,
                "An internal server error occurred."⟩) ∧
    (∀ (e1 e2 : ThrownError) (hs : Bool),
        safetyNetResponse e1 hs = safetyNetResponse e2 hs) :=
  ⟨rfl, fun _ => rfl, fun _ _ _ => rfl⟩

/-- C3 (code bug evidence): the main server implements the claim — for every
first operand, streaming flag, precision, metric-series state and duration,
calculate with op = divide and b = 0 throws
McpError(InvalidParams, 'Division by zero is not allowed.'), whose stable
numeric code -32602 differs from the internal-error code -32603 — but the
legacy variant's calculate handler, evaluated at the failing input a = 10,
b = 0, op = divide, throws the plain Error('Division by zero'), which
carries no error code at all, so the error the client sees there does not
carry the invalid-parameters code. -/
theorem calculate_divide_by_zero_code_evidence :
    (∀ (a : ℚ) (stream : Bool) (precision : ℤ) (series : List ℕ) (dur : ℕ),
      finalOutcome (calculateTool a 0 .divide stream precision series dur).trace
          = some (.error ⟨.InvalidParams, "Division by zero is not allowed."⟩)) ∧
    ErrorCode.InvalidParams.code = -32602 ∧
    ErrorCode.InvalidParams ≠ ErrorCode.InternalError ∧
    ErrorCode.InvalidParams.code ≠ ErrorCode.InternalError.code ∧
    legacyCalculateOp 10 0 .divide = .error ⟨"Division by zero", none⟩ ∧
    (∀ a : ℚ, legacyCalculateOp a 0 .divide
        = .error ⟨"Division by zero", none⟩) := by
  refine ⟨?_, rfl, by decide, by decide, by simp [legacyCalculateOp],
    fun a => by simp [legacyCalculateOp]⟩
  intro a stream precision series dur
  cases stream <;> simp [calculateTool, finalOutcome]

/-- C4: the percentile query returns 0 for the empty series, returns 30 for
the series [10,20,30,40,50] at p = 0.5 and 50 at p = 0.95, and in general,
for every non-empty series and p in [0,1], equals the entry at index
ceil((n-1)*p) of the (unique) ascending sorted copy of the series. -/
theorem percentile_ceiling_index_spec :
    (∀ p : ℚ, percentile [] p = 0) ∧
    percentile [10, 20, 30, 40, 50] (1/2) = 30 ∧
    percentile [10, 20, 30, 40, 50] (95/100) = 50 ∧
    (∀ (arr : List ℚ) (p : ℚ), arr ≠ [] → 0 ≤ p → p ≤ 1 →
      ∀ s : List ℚ, s.Perm arr → s.Sorted (· ≤ ·) →
        percentile arr p = s.getD (⌈((arr.length : ℚ) - 1) * p⌉).toNat 0) := by
  refine ⟨fun _ => rfl, ?_, ?_, ?_⟩
  · norm_num [percentile, List.insertionSort, List.orderedInsert]
    rfl
  · norm_num [percentile, List.insertionSort, List.orderedInsert,
      show (⌈(19:ℚ)/5⌉ : ℤ) = 4 from by norm_num [Int.ceil_eq_iff]]
    rfl
  · intro arr p hne hp0 _hp1 s hperm hsort
    have hsi : s = arr.insertionSort (· ≤ ·) :=
      List.eq_of_perm_of_sorted
        (hperm.trans (List.perm_insertionSort _ arr).symm) hsort
        (List.sorted_insertionSort _ arr)
    rw [percentile_eq_getD hne hp0, hsi]

/-- C4 (witness): the general clause applied to the unsorted series
[30,10,50,20,40] with p = 0.95 and its ascending reordering
[10,20,30,40,50]. -/
theorem percentile_ceiling_index_spec_witness :
    ([30, 10, 50, 20, 40] : List ℚ) ≠ [] ∧ (0 : ℚ) ≤ 95/100 ∧
    (95/100 : ℚ) ≤ 1 ∧
    ([10, 20, 30, 40, 50] : List ℚ).Perm [30, 10, 50, 20, 40] ∧
    ([10, 20, 30, 40, 50] : List ℚ).Sorted (· ≤ ·) ∧
    percentile [30, 10, 50, 20, 40] (95/100)
      = ([10, 20, 30, 40, 50] : List ℚ).getD
          (⌈((([30, 10, 50, 20, 40] : List ℚ).length : ℚ) - 1) * (95/100)⌉).toNat
          0 := by
  refine ⟨by simp, by norm_num, by norm_num, by decide, by decide, ?_⟩
  exact percentile_ceiling_index_spec.2.2.2 [30, 10, 50, 20, 40] (95/100)
    (by simp) (by norm_num) (by norm_num) [10, 20, 30, 40, 50]
    (by decide) (by decide)

/-- C5: appending to a metric series via push-then-shift keeps its length at
or below the capacity 1000; at capacity the oldest (front) sample is evicted
and the new one appended (FIFO); and starting from the empty buffer, after
any stream of N completed requests the buffer holds exactly the most recent
min(N,1000) samples — in particular, for N > 1000 its length is exactly
1000. -/
theorem metrics_buffer_bounded_fifo :
    (∀ (buf : List ℕ) (d : ℕ), buf.length ≤ 1000 →
      (pushBounded buf d).length ≤ 1000) ∧
    (∀ (buf : List ℕ) (d : ℕ), buf.length = 1000 →
      pushBounded buf d = buf.tail ++ [d]) ∧
    (∀ ds : List ℕ,
      List.foldl pushBounded [] ds = ds.drop (ds.length - 1000)) ∧
    (∀ ds : List ℕ, 1000 < ds.length →
      (List.foldl pushBounded [] ds).length = 1000) := by
  refine ⟨?_, ?_, ?_, ?_⟩
  · intro buf d h
    unfold pushBounded
    split <;> simp_all
  · intro buf d h
    cases buf with
    | nil => simp at h
    | cons x t =>
        rw [pushBounded_of_full (by omega)]
        rfl
  · intro ds
    rw [pushBounded_foldl ds [] (by simp)]
    simp
  · intro ds h
    rw [pushBounded_foldl ds [] (by simp)]
    simp only [List.nil_append, List.length_nil, Nat.zero_add,
      List.length_drop]
    omega

/-- C5 (witness): the bound, the FIFO step at a full buffer, and the exact
length after 1001 samples, at concrete inputs. -/
theorem metrics_buffer_bounded_fifo_witness :
    (([] : List ℕ).length ≤ 1000 ∧ (pushBounded [] 5).length ≤ 1000) ∧
    ((List.replicate 1000 (0 : ℕ)).length = 1000 ∧
      pushBounded (List.replicate 1000 0) 7
        = (List.replicate 1000 (0 : ℕ)).tail ++ [7]) ∧
    (1000 < (List.range 1001).length ∧
      (List.foldl pushBounded [] (List.range 1001)).length = 1000) := by
  refine ⟨⟨by simp, ?_⟩, ⟨List.length_replicate 1000 0, ?_⟩, ⟨by simp, ?_⟩⟩
  · exact metrics_buffer_bounded_fifo.1 [] 5 (by simp)
  · exact metrics_buffer_bounded_fifo.2.1 (List.replicate 1000 0) 7
      (List.length_replicate 1000 0)
  · exact metrics_buffer_bounded_fifo.2.2.2 (List.range 1001) (by simp)

/-- C6 (counterexample): the calculator-history handler fails with
ErrorCode.MethodNotFound, whose category in the spec's own error taxonomy is
method-not-found, not the distinct not-found category the claim names — in
fact no error code the source emits maps to the taxonomy's not-found
category at all. -/
theorem calculator_history_code_is_method_not_found :
    calculatorHistoryResource "calculator://history/42"
      = .error ⟨.MethodNotFound,
          "Resource requires state, which is not supported by this server."⟩ ∧
    specFaultOf ErrorCode.MethodNotFound = SpecFaultCode.methodNotFound ∧
    specFaultOf ErrorCode.MethodNotFound ≠ SpecFaultCode.notFound ∧
    (∀ c : ErrorCode, specFaultOf c ≠ SpecFaultCode.notFound) :=
  ⟨rfl, rfl, by decide, fun c => by cases c <;> decide⟩

/-- C6 (amended): every read of the calculator-history resource, for any id,
fails deterministically in both variants, but with no dedicated not-found
code: the main server (src/server.ts) throws McpError with the
method-not-found code -32601 — the code the protocol uses for unknown
methods — and a fixed message, while the legacy variant
(src/stateless-production-server.ts) throws a plain Error('404 Not Found')
whose attached code -32602 is the numeric value of the invalid-parameters
code; the two variants do not even agree with each other on the code. -/
theorem calculator_history_always_fails_both_variants :
    (∀ uri : String,
      calculatorHistoryResource uri
        = .error ⟨.MethodNotFound,
            "Resource requires state, which is not supported by this server."⟩) ∧
    ErrorCode.MethodNotFound.code = -32601 ∧
    (∀ uri : String,
      legacyCalculatorHistoryResource uri
        = .error ⟨"404 Not Found", some (-32602)⟩) ∧
    (-32602 : ℤ) = ErrorCode.InvalidParams.code ∧
    ErrorCode.MethodNotFound.code ≠ ErrorCode.InvalidParams.code :=
  ⟨fun _ => rfl, rfl, fun _ => rfl, rfl, by decide⟩

/-- C7 (counterexample): the factory reads process.env['SAMPLE_TOOL_NAME']
inside createMCPServer, i.e. on every call; two calls observing different
environment states register different capability sets, so it is not the case
that any two calls produce equal capability sets decided by a flag read once
at startup. -/
theorem factory_capabilities_depend_on_env :
    createMCPServer ⟨some "echo"⟩ ≠ createMCPServer ⟨none⟩ ∧
    (createMCPServer ⟨some "echo"⟩).tools = ["echo", "calculate", "demo_progress"] ∧
    (createMCPServer ⟨none⟩).tools = ["calculate", "demo_progress"] := by
  refine ⟨by decide, rfl, rfl⟩

/-- C7 (amended): the capability set registered by a factory call is a
function of the single environment value it reads during that call: two
calls observing the same SAMPLE_TOOL_NAME value register equal capability
sets, and the resource set, prompt set and the base tools are the same fixed
set on every call regardless of the environment. -/
theorem factory_deterministic_given_env :
    (∀ e1 e2 : EnvConfig, e1.sampleToolName = e2.sampleToolName →
      createMCPServer e1 = createMCPServer e2) ∧
    (∀ env : EnvConfig,
      (createMCPServer env).resources = registeredResources ∧
      (createMCPServer env).prompts = registeredPrompts ∧
      "calculate" ∈ (createMCPServer env).tools ∧
      "demo_progress" ∈ (createMCPServer env).tools) := by
  constructor
  · intro e1 e2 h
    obtain ⟨v1⟩ := e1
    obtain ⟨v2⟩ := e2
    cases h
    rfl
  · intro env
    obtain ⟨v⟩ := env
    refine ⟨rfl, rfl, ?_, ?_⟩ <;>
      (cases v with
       | none => simp [createMCPServer, registeredTools]
       | some n => by_cases hn : n = "" <;>
           simp [createMCPServer, registeredTools, hn])

/-- C7 (witness): the amended determinism clause applied to two factory calls
observing the same environment value. -/
theorem factory_deterministic_given_env_witness :
    (EnvConfig.mk (some "echo")).sampleToolName
        = (EnvConfig.mk (some "echo")).sampleToolName ∧
    createMCPServer ⟨some "echo"⟩ = createMCPServer ⟨some "echo"⟩ :=
  ⟨rfl, factory_deterministic_given_env.1 ⟨some "echo"⟩ ⟨some "echo"⟩ rfl⟩

/-- C8: in every calculate invocation — for all operands, operation,
streaming flag, precision, series state and duration — and in every
demo_progress invocation, the emitted trace consists of a block of progress
events followed by the single final result, the progress fractions are
strictly increasing and lie in [0,1], and no progress event follows the
final result. -/
theorem progress_monotone_bounded_before_result :
    (∀ (a b : ℚ) (op : Op) (stream : Bool) (precision : ℤ)
        (series : List ℕ) (dur : ℕ),
      ∃ (ps : List ℚ) (r : Except McpError ℚ),
        (calculateTool a b op stream precision series dur).trace
            = ps.map ToolEvent.progress ++ [ToolEvent.final r] ∧
        ps.Chain' (· < ·) ∧ ∀ q ∈ ps, 0 ≤ q ∧ q ≤ 1) ∧
    (∃ (ps : List ℚ) (r : Except McpError String),
        demoProgressTrace = ps.map ToolEvent.progress ++ [ToolEvent.final r] ∧
        ps.Chain' (· < ·) ∧ ∀ q ∈ ps, 0 ≤ q ∧ q ≤ 1) := by
  constructor
  · intro a b op stream precision series dur
    cases op with
    | add =>
        cases stream with
        | false =>
            exact ⟨[], .ok (roundToPrecision (a + b) precision),
              by simp [calculateTool], by simp, by simp⟩
        | true =>
            exact ⟨[1/10, 1], .ok (roundToPrecision (a + b) precision),
              by simp [calculateTool], by norm_num, by norm_num⟩
    | subtract =>
        cases stream with
        | false =>
            exact ⟨[], .ok (roundToPrecision (a - b) precision),
              by simp [calculateTool], by simp, by simp⟩
        | true =>
            exact ⟨[1/10, 1], .ok (roundToPrecision (a - b) precision),
              by simp [calculateTool], by norm_num, by norm_num⟩
    | multiply =>
        cases stream with
        | false =>
            exact ⟨[], .ok (roundToPrecision (a * b) precision),
              by simp [calculateTool], by simp, by simp⟩
        | true =>
            exact ⟨[1/10, 1], .ok (roundToPrecision (a * b) precision),
              by simp [calculateTool], by norm_num, by norm_num⟩
    | divide =>
        by_cases hb : b = 0
        · subst hb
          cases stream with
          | false =>
              exact ⟨[],
                .error ⟨.InvalidParams, "Division by zero is not allowed."⟩,
                by simp [calculateTool], by simp, by simp⟩
          | true =>
              exact ⟨[1/10],
                .error ⟨.InvalidParams, "Division by zero is not allowed."⟩,
                by simp [calculateTool], by simp, by norm_num⟩
        · cases stream with
          | false =>
              exact ⟨[], .ok (roundToPrecision (a / b) precision),
                by simp [calculateTool, hb], by simp, by simp⟩
          | true =>
              exact ⟨[1/10, 1], .ok (roundToPrecision (a / b) precision),
                by simp [calculateTool, hb], by norm_num, by norm_num⟩
  · exact ⟨[1/5, 2/5, 3/5, 4/5, 5/5],
      .ok "Progress demonstration completed with 5 incremental steps",
      rfl, by norm_num, by norm_num⟩

/-- C9: the shared 'calculate' execution-time series is appended to exactly
when the handler returns successfully: when the invocation ends in a thrown
error the series is left unchanged, and when it returns a result the series
is the bounded append of the measured duration (which then sits at the
end). -/
theorem calculate_series_appended_iff_success :
    ∀ (a b : ℚ) (op : Op) (stream : Bool) (precision : ℤ)
        (series : List ℕ) (dur : ℕ),
      ((∃ e, finalOutcome (calculateTool a b op stream precision series dur).trace
          = some (.error e)) →
        (calculateTool a b op stream precision series dur).series = series) ∧
      ((∃ r, finalOutcome (calculateTool a b op stream precision series dur).trace
          = some (.ok r)) →
        (calculateTool a b op stream precision series dur).series
            = pushBounded series dur ∧
        ((calculateTool a b op stream precision series dur).series).getLast?
            = some dur) := by
  intro a b op stream precision series dur
  cases op <;> cases stream <;>
    [skip; skip; skip; skip; skip; skip;
     by_cases hb : b = 0; by_cases hb : b = 0] <;>
    constructor <;>
    simp_all [calculateTool, finalOutcome, pushBounded_getLast]

/-- C9 (witness): both clauses applied at concrete invocations — a division
by zero leaves the series [5] unchanged, and a successful addition appends
the duration 3. -/
theorem calculate_series_appended_iff_success_witness :
    ((∃ e, finalOutcome (calculateTool 1 0 .divide false 2 [5] 3).trace
        = some (.error e)) ∧
      (calculateTool 1 0 .divide false 2 [5] 3).series = [5]) ∧
    ((∃ r, finalOutcome (calculateTool 1 2 .add false 2 [5] 3).trace
        = some (.ok r)) ∧
      (calculateTool 1 2 .add false 2 [5] 3).series = pushBounded [5] 3) := by
  constructor
  · constructor
    · exact ⟨⟨.InvalidParams, "Division by zero is not allowed."⟩,
        by simp [calculateTool, finalOutcome]⟩
    · exact (calculate_series_appended_iff_success 1 0 .divide false 2 [5] 3).1
        ⟨⟨.InvalidParams, "Division by zero is not allowed."⟩,
         by simp [calculateTool, finalOutcome]⟩
  · constructor
    · exact ⟨roundToPrecision (1 + 2) 2,
        by simp [calculateTool, finalOutcome]⟩
    · exact ((calculate_series_appended_iff_success 1 2 .add false 2 [5] 3).2
        ⟨roundToPrecision (1 + 2) 2,
         by simp [calculateTool, finalOutcome]⟩).1

/-- C10: for every non-empty series and fraction p in [0,1], the ceiling
index computed by the percentile query is non-negative and strictly below
the series length, so the indexed read always yields an element of the
series — the 0 fallback is reached only on the empty series. -/
theorem percentile_index_safe :
    ∀ (arr : List ℚ) (p : ℚ), arr ≠ [] → 0 ≤ p → p ≤ 1 →
      0 ≤ ⌈((arr.length : ℚ) - 1) * p⌉ ∧
      (⌈((arr.length : ℚ) - 1) * p⌉).toNat < arr.length ∧
      percentile arr p ∈ arr := by
  intro arr p hne hp0 hp1
  have hlen : arr.length ≠ 0 := by simpa [List.length_eq_zero] using hne
  have hn : 1 ≤ arr.length := Nat.one_le_iff_ne_zero.mpr hlen
  refine ⟨ceilIndex_nonneg hn hp0, ceilIndex_lt hn hp1, ?_⟩
  rw [percentile_eq_getD hne hp0]
  have hidx : (⌈((arr.length : ℚ) - 1) * p⌉).toNat
      < (arr.insertionSort (· ≤ ·)).length := by
    rw [length_insertionSort_rat]
    exact ceilIndex_lt hn hp1
  rw [List.getD_eq_getElem _ _ hidx]
  exact (List.mem_insertionSort (· ≤ ·)).mp (List.getElem_mem _)

/-- C10 (witness): index safety and membership at the five-element series
with p = 0.5. -/
theorem percentile_index_safe_witness :
    ([10, 20, 30, 40, 50] : List ℚ) ≠ [] ∧ (0 : ℚ) ≤ 1/2 ∧ (1/2 : ℚ) ≤ 1 ∧
    (⌈((([10, 20, 30, 40, 50] : List ℚ).length : ℚ) - 1) * (1/2)⌉).toNat
        < ([10, 20, 30, 40, 50] : List ℚ).length ∧
    percentile [10, 20, 30, 40, 50] (1/2) ∈ ([10, 20, 30, 40, 50] : List ℚ) := by
  refine ⟨by simp, by norm_num, by norm_num, ?_, ?_⟩
  · exact (percentile_index_safe [10, 20, 30, 40, 50] (1/2)
      (by simp) (by norm_num) (by norm_num)).2.1
  · exact (percentile_index_safe [10, 20, 30, 40, 50] (1/2)
      (by simp) (by norm_num) (by norm_num)).2.2
